import Mathlib

/-!
Verification of the descript-redis-cache adapter (src/index.ts, src/index.js).

The development shallowly embeds the three parts of the adapter:

* the key normalizer `normalizeKey` — the SHA-512 hex digest of
  the UTF-8 bytes of the string built by the template literal
  `g<generation>:<key>` (src/index.ts lines 362-365, src/index.js 258-264);
  SHA-512 is implemented from the FIPS 180-4 algorithm over `Nat` with
  explicit `% 2^64` arithmetic;
* the serialization boundary — `JSON.stringify` / `JSON.parse` embedded
  for the JSON payload domain `Json` (integer numbers, strings of unicode
  scalar values, arrays, objects as ordered key-value lists, without
  inter-token whitespace on parse);
* the cache operation engine — `get`'s timeout race and branch taxonomy
  (src/index.ts 168-273) and `set`'s pipeline (src/index.ts 275-355,
  src/index.js 160-251), modelled as trace-producing functions over an
  explicit schedule of the timer/store race, with the logger as an
  injected capability that may throw.
-/

namespace RedisCache

/-! ## Decimal digits (number rendering of the template literal and of JSON.stringify) -/

/-- Lowercase hex digit character for n < 16 (0-9 then a-f); for n < 10 it is the decimal digit. -/
def hexDigitChar (n : Nat) : Char := if n < 10 then Char.ofNat (48 + n) else Char.ofNat (87 + n)

/-- The sixteen lowercase hexadecimal digit characters. -/
def lowerHexChars : List Char := "0123456789abcdef".data

/-- Decimal digits of n, least significant first. Fuel-structural so that it
reduces in the kernel; fuel n+1 always suffices. -/
def natDigitsRevF : Nat → Nat → List Char
  | 0, _ => []
  | fuel + 1, n =>
    if n < 10 then [hexDigitChar n]
    else hexDigitChar (n % 10) :: natDigitsRevF fuel (n / 10)

/-- Decimal rendering of a natural number, as JavaScript renders an integer Number. -/
def serNat (n : Nat) : List Char := (natDigitsRevF (n + 1) n).reverse

/-- Consume a maximal run of decimal digits, accumulating their value. -/
def parseDigits : List Char → Nat → Nat × List Char
  | c :: r, acc => if c.isDigit then parseDigits r (acc * 10 + (c.toNat - 48)) else (acc, c :: r)
  | [], acc => (acc, [])

/-! ## The JSON payload domain and the serialization boundary

`Json` is the supported payload domain: JSON values whose numbers are
integers (the integral doubles JavaScript prints in decimal) and whose
strings are sequences of unicode scalar values. Objects are ordered
key-value lists, matching the insertion order JSON.stringify serializes. -/

inductive Json where
  | null : Json
  | bool (bv : Bool) : Json
  | num (iv : Int) : Json
  | str (sv : String) : Json
  | arr (items : List Json) : Json
  | obj (fields : List (String × Json)) : Json

/-- Decimal rendering of an integer, as JSON.stringify prints an integral double. -/
def serInt (n : Int) : List Char :=
  if n < 0 then '-' :: serNat (-n).toNat else serNat n.toNat

/-- JSON.stringify's escaping of one string character: quote, backslash,
the five short control escapes, \u00XX for other control characters,
every other character verbatim. -/
def serChar (c : Char) : List Char :=
  if c = '"' then ['\\', '"']
  else if c = '\\' then ['\\', '\\']
  else if c = '\x08' then ['\\', 'b']
  else if c = '\x09' then ['\\', 't']
  else if c = '\x0a' then ['\\', 'n']
  else if c = '\x0c' then ['\\', 'f']
  else if c = '\x0d' then ['\\', 'r']
  else if c.toNat < 32 then
    ['\\', 'u', '0', '0', hexDigitChar (c.toNat / 16), hexDigitChar (c.toNat % 16)]
  else [c]

def serStrBody (cs : List Char) : List Char := (cs.map serChar).flatten

/-- JSON string literal: quoted, escaped body. -/
def serStr (s : String) : List Char := '"' :: (serStrBody s.data ++ ['"'])

mutual

/-- JSON.stringify (no indentation) restricted to the payload domain `Json`. -/
def serJson : Json → List Char
  | .null => "null".data
  | .bool true => "true".data
  | .bool false => "false".data
  | .num n => serInt n
  | .str s => serStr s
  | .arr es => '[' :: (serElems es ++ [']'])
  | .obj ms => '{' :: (serMembers ms ++ ['}'])

def serElems : List Json → List Char
  | [] => []
  | [j] => serJson j
  | j :: rest => serJson j ++ ',' :: serElems rest

def serMembers : List (String × Json) → List Char
  | [] => []
  | [(k, v)] => serStr k ++ ':' :: serJson v
  | (k, v) :: rest => serStr k ++ ':' :: serJson v ++ ',' :: serMembers rest

end

/-- The encode step of the serialization boundary, as a string. -/
def serializeJson (j : Json) : String := String.mk (serJson j)

def hexVal (c : Char) : Option Nat :=
  if 48 ≤ c.toNat ∧ c.toNat ≤ 57 then some (c.toNat - 48)
  else if 97 ≤ c.toNat ∧ c.toNat ≤ 102 then some (c.toNat - 87)
  else if 65 ≤ c.toNat ∧ c.toNat ≤ 70 then some (c.toNat - 55)
  else none

/-- The eight single-character JSON string escapes. -/
def escChar (e : Char) : Option Char :=
  if e = '"' then some '"'
  else if e = '\\' then some '\\'
  else if e = '/' then some '/'
  else if e = 'b' then some '\x08'
  else if e = 'f' then some '\x0c'
  else if e = 'n' then some '\x0a'
  else if e = 'r' then some '\x0d'
  else if e = 't' then some '\x09'
  else none

/-- Character of a \uXXXX code unit when it is a unicode scalar value
(the payload domain excludes lone surrogates). -/
def mkCharOf (n : Nat) : Option Char :=
  if n < 55296 then some (Char.ofNat n)
  else if 57344 ≤ n ∧ n < 1114112 then some (Char.ofNat n)
  else none

/-- Parse a JSON string literal body up to the closing quote. -/
def parseStringBody : List Char → Option (List Char × List Char)
  | [] => none
  | '"' :: rest => some ([], rest)
  | '\\' :: 'u' :: h1 :: h2 :: h3 :: h4 :: r2 =>
    (match hexVal h1, hexVal h2, hexVal h3, hexVal h4 with
     | some v1, some v2, some v3, some v4 =>
       match mkCharOf (((v1 * 16 + v2) * 16 + v3) * 16 + v4) with
       | some ch => (parseStringBody r2).map (fun p => (ch :: p.1, p.2))
       | none => none
     | _, _, _, _ => none)
  | '\\' :: e :: r2 =>
    (match escChar e with
     | some ch => (parseStringBody r2).map (fun p => (ch :: p.1, p.2))
     | none => none)
  | ['\\'] => none
  | c :: rest =>
    if c.toNat < 32 then none
    else (parseStringBody rest).map (fun p => (c :: p.1, p.2))

mutual

/-- Recursive-descent JSON value parser (the decode step of the
serialization boundary, JSON.parse on the sub-grammar the serializer
emits: integer numerals, no inter-token whitespace). Fuel-structural;
fuel bounds the nesting and exceeds the input length at the top entry. -/
def parseValue : Nat → List Char → Option (Json × List Char)
  | 0, _ => none
  | fuel + 1, cs =>
    match cs with
    | [] => none
    | c :: rest =>
      if c = '-' then
        match rest with
        | d :: _ =>
          if d.isDigit then
            match parseDigits rest 0 with
            | (n, r2) => some (.num (-(n : Int)), r2)
          else none
        | [] => none
      else if c.isDigit then
        match parseDigits (c :: rest) 0 with
        | (n, r2) => some (.num (n : Int), r2)
      else if c = 'n' then
        match rest with
        | 'u' :: 'l' :: 'l' :: r2 => some (.null, r2)
        | _ => none
      else if c = 't' then
        match rest with
        | 'r' :: 'u' :: 'e' :: r2 => some (.bool true, r2)
        | _ => none
      else if c = 'f' then
        match rest with
        | 'a' :: 'l' :: 's' :: 'e' :: r2 => some (.bool false, r2)
        | _ => none
      else if c = '"' then
        match parseStringBody rest with
        | some (body, r2) => some (.str (String.mk body), r2)
        | none => none
      else if c = '[' then
        if rest.head? = some ']' then some (.arr [], rest.tail)
        else
          match parseElems fuel rest with
          | some (es, ']' :: r2) => some (.arr es, r2)
          | _ => none
      else if c = '{' then
        if rest.head? = some '}' then some (.obj [], rest.tail)
        else
          match parseMembers fuel rest with
          | some (ms, '}' :: r2) => some (.obj ms, r2)
          | _ => none
      else none

/-- Comma-separated values; stops before the first character that does not continue the list. -/
def parseElems : Nat → List Char → Option (List Json × List Char)
  | 0, _ => none
  | fuel + 1, cs =>
    match parseValue fuel cs with
    | some (j, ',' :: r2) =>
      match parseElems fuel r2 with
      | some (es, r3) => some (j :: es, r3)
      | none => none
    | some (j, r2) => some ([j], r2)
    | none => none

/-- Comma-separated key:value members; stops before the first character that does not continue the list. -/
def parseMembers : Nat → List Char → Option (List (String × Json) × List Char)
  | 0, _ => none
  | fuel + 1, cs =>
    match cs with
    | '"' :: rest =>
      match parseStringBody rest with
      | some (kcs, ':' :: r2) =>
        match parseValue fuel r2 with
        | some (v, ',' :: r3) =>
          match parseMembers fuel r3 with
          | some (ms, r4) => some ((String.mk kcs, v) :: ms, r4)
          | none => none
        | some (v, r3) => some ([(String.mk kcs, v)], r3)
        | none => none
      | _ => none
    | _ => none

end

/-- JSON.parse embedded on the payload sub-grammar: a whole-input parse;
failure (`none`) models a thrown SyntaxError. In particular the empty
string does not parse. -/
def jsonParse (s : String) : Option Json :=
  match parseValue (s.data.length + 1) s.data with
  | some (j, []) => some j
  | _ => none

/-! ## SHA-512 (FIPS 180-4) over Nat words, 64-bit arithmetic via explicit mod 2^64.

This embeds node's crypto SHA-512 primitive used by the key normalizer. -/

def M64 : Nat := 2 ^ 64

def rotr64 (x n : Nat) : Nat := ((x >>> n) ||| (x <<< (64 - n))) % M64

def bSig0 (x : Nat) : Nat := rotr64 x 28 ^^^ rotr64 x 34 ^^^ rotr64 x 39

def bSig1 (x : Nat) : Nat := rotr64 x 14 ^^^ rotr64 x 18 ^^^ rotr64 x 41

def sSig0 (x : Nat) : Nat := rotr64 x 1 ^^^ rotr64 x 8 ^^^ (x >>> 7)

def sSig1 (x : Nat) : Nat := rotr64 x 19 ^^^ rotr64 x 61 ^^^ (x >>> 6)

def ch64 (x y z : Nat) : Nat := (x &&& y) ^^^ ((x ^^^ (M64 - 1)) &&& z)

def maj64 (x y z : Nat) : Nat := (x &&& y) ^^^ (x &&& z) ^^^ (y &&& z)

/-- The 80 SHA-512 round constants (first 64 bits of the fractional parts
of the cube roots of the first 80 primes), stored as (high, low) 32-bit
halves of each 64-bit word. -/
def K512pairs : List (Nat × Nat) := [
  (0x428a2f98, 0xd728ae22), (0x71374491, 0x23ef65cd), (0xb5c0fbcf, 0xec4d3b2f), (0xe9b5dba5, 0x8189dbbc),
  (0x3956c25b, 0xf348b538), (0x59f111f1, 0xb605d019), (0x923f82a4, 0xaf194f9b), (0xab1c5ed5, 0xda6d8118),
  (0xd807aa98, 0xa3030242), (0x12835b01, 0x45706fbe), (0x243185be, 0x4ee4b28c), (0x550c7dc3, 0xd5ffb4e2),
  (0x72be5d74, 0xf27b896f), (0x80deb1fe, 0x3b1696b1), (0x9bdc06a7, 0x25c71235), (0xc19bf174, 0xcf692694),
  (0xe49b69c1, 0x9ef14ad2), (0xefbe4786, 0x384f25e3), (0x0fc19dc6, 0x8b8cd5b5), (0x240ca1cc, 0x77ac9c65),
  (0x2de92c6f, 0x592b0275), (0x4a7484aa, 0x6ea6e483), (0x5cb0a9dc, 0xbd41fbd4), (0x76f988da, 0x831153b5),
  (0x983e5152, 0xee66dfab), (0xa831c66d, 0x2db43210), (0xb00327c8, 0x98fb213f), (0xbf597fc7, 0xbeef0ee4),
  (0xc6e00bf3, 0x3da88fc2), (0xd5a79147, 0x930aa725), (0x06ca6351, 0xe003826f), (0x14292967, 0x0a0e6e70),
  (0x27b70a85, 0x46d22ffc), (0x2e1b2138, 0x5c26c926), (0x4d2c6dfc, 0x5ac42aed), (0x53380d13, 0x9d95b3df),
  (0x650a7354, 0x8baf63de), (0x766a0abb, 0x3c77b2a8), (0x81c2c92e, 0x47edaee6), (0x92722c85, 0x1482353b),
  (0xa2bfe8a1, 0x4cf10364), (0xa81a664b, 0xbc423001), (0xc24b8b70, 0xd0f89791), (0xc76c51a3, 0x0654be30),
  (0xd192e819, 0xd6ef5218), (0xd6990624, 0x5565a910), (0xf40e3585, 0x5771202a), (0x106aa070, 0x32bbd1b8),
  (0x19a4c116, 0xb8d2d0c8), (0x1e376c08, 0x5141ab53), (0x2748774c, 0xdf8eeb99), (0x34b0bcb5, 0xe19b48a8),
  (0x391c0cb3, 0xc5c95a63), (0x4ed8aa4a, 0xe3418acb), (0x5b9cca4f, 0x7763e373), (0x682e6ff3, 0xd6b2b8a3),
  (0x748f82ee, 0x5defb2fc), (0x78a5636f, 0x43172f60), (0x84c87814, 0xa1f0ab72), (0x8cc70208, 0x1a6439ec),
  (0x90befffa, 0x23631e28), (0xa4506ceb, 0xde82bde9), (0xbef9a3f7, 0xb2c67915), (0xc67178f2, 0xe372532b),
  (0xca273ece, 0xea26619c), (0xd186b8c7, 0x21c0c207), (0xeada7dd6, 0xcde0eb1e), (0xf57d4f7f, 0xee6ed178),
  (0x06f067aa, 0x72176fba), (0x0a637dc5, 0xa2c898a6), (0x113f9804, 0xbef90dae), (0x1b710b35, 0x131c471b),
  (0x28db77f5, 0x23047d84), (0x32caab7b, 0x40c72493), (0x3c9ebe0a, 0x15c9bebc), (0x431d67c4, 0x9c100d4c),
  (0x4cc5d4be, 0xcb3e42b6), (0x597f299c, 0xfc657e2a), (0x5fcb6fab, 0x3ad6faec), (0x6c44198c, 0x4a475817)]

def K512 : List Nat := K512pairs.map (fun p => p.1 * 4294967296 + p.2)

structure Hash8 where
  a : Nat
  b : Nat
  c : Nat
  d : Nat
  e : Nat
  f : Nat
  g : Nat
  h : Nat

def sha512H0 : Hash8 :=
  ⟨0x6a09e667f3bcc908, 0xbb67ae8584caa73b, 0x3c6ef372fe94f82b, 0xa54ff53a5f1d36f1,
   0x510e527fade682d1, 0x9b05688c2b3e6c1f, 0x1f83d9abfb41bd6b, 0x5be0cd19137e2179⟩

/-- Big-endian byte rendering of a value on k bytes. -/
def beBytes : Nat → Nat → List Nat
  | 0, _ => []
  | k + 1, x => beBytes k (x / 256) ++ [x % 256]

/-- Big-endian 64-bit word from 8 bytes. -/
def beWord (bs : List Nat) : Nat := bs.foldl (fun a c => a * 256 + c) 0

/-- Split a byte sequence into big-endian 64-bit words (8 bytes each). -/
def toWords : List Nat → List Nat
  | b0 :: b1 :: b2 :: b3 :: b4 :: b5 :: b6 :: b7 :: rest =>
    beWord [b0, b1, b2, b3, b4, b5, b6, b7] :: toWords rest
  | _ => []

/-- SHA-512 padding: 0x80, zeros, then 16-byte big-endian bit length. -/
def sha512Pad (len : Nat) : List Nat :=
  0x80 :: (List.replicate ((239 - len % 128) % 128) 0 ++ beBytes 16 (8 * len))

/-- Message schedule: extend the 16 block words by k more. -/
def schedExtend (w : List Nat) : Nat → List Nat
  | 0 => w
  | k + 1 =>
    let n := w.length
    schedExtend
      (w ++ [(sSig1 (w.getD (n - 2) 0) + w.getD (n - 7) 0 +
              sSig0 (w.getD (n - 15) 0) + w.getD (n - 16) 0) % M64]) k

def sha512Round (w : List Nat) (t : Nat) (st : Hash8) : Hash8 :=
  let t1 := (st.h + bSig1 st.e + ch64 st.e st.f st.g + K512.getD t 0 + w.getD t 0) % M64
  let t2 := (bSig0 st.a + maj64 st.a st.b st.c) % M64
  ⟨(t1 + t2) % M64, st.a, st.b, st.c, (st.d + t1) % M64, st.e, st.f, st.g⟩

def sha512Rounds (w : List Nat) (t : Nat) : Nat → Hash8 → Hash8
  | 0, st => st
  | k + 1, st => sha512Rounds w (t + 1) k (sha512Round w t st)

def sha512Block (hv : Hash8) (block : List Nat) : Hash8 :=
  let w := schedExtend (toWords block) 64
  let st := sha512Rounds w 0 80 hv
  ⟨(hv.a + st.a) % M64, (hv.b + st.b) % M64, (hv.c + st.c) % M64, (hv.d + st.d) % M64,
   (hv.e + st.e) % M64, (hv.f + st.f) % M64, (hv.g + st.g) % M64, (hv.h + st.h) % M64⟩

def hash8Bytes (hv : Hash8) : List Nat :=
  beBytes 8 hv.a ++ beBytes 8 hv.b ++ beBytes 8 hv.c ++ beBytes 8 hv.d ++
  beBytes 8 hv.e ++ beBytes 8 hv.f ++ beBytes 8 hv.g ++ beBytes 8 hv.h

/-- Process the padded message in 128-byte blocks; the fuel exceeds the block count. -/
def sha512Blocks : Nat → Hash8 → List Nat → Hash8
  | _, hv, [] => hv
  | 0, hv, _ => hv
  | fuel + 1, hv, l => sha512Blocks fuel (sha512Block hv (l.take 128)) (l.drop 128)

/-- SHA-512 digest (64 bytes) of a byte sequence. -/
def sha512Bytes (msg : List Nat) : List Nat :=
  hash8Bytes (sha512Blocks (msg.length + 17) sha512H0 (msg ++ sha512Pad msg.length))

/-- Lowercase hexadecimal rendering of a byte sequence. -/
def hexOfBytes (bs : List Nat) : List Char :=
  (bs.map (fun b => [hexDigitChar (b / 16), hexDigitChar (b % 16)])).flatten

def sha512HexChars (msg : List Nat) : List Char := hexOfBytes (sha512Bytes msg)

/-- UTF-8 bytes of one unicode scalar value. -/
def utf8Char (c : Char) : List Nat :=
  let n := c.toNat
  if n < 128 then [n]
  else if n < 2048 then [192 + n / 64, 128 + n % 64]
  else if n < 65536 then [224 + n / 4096, 128 + n / 64 % 64, 128 + n % 64]
  else [240 + n / 262144, 128 + n / 4096 % 64, 128 + n / 64 % 64, 128 + n % 64]

def utf8Encode (cs : List Char) : List Nat := (cs.map utf8Char).flatten

/-! ## The key normalizer (src/index.ts 362-365, src/index.js 258-264) -/

/-- The hashed string of the template literal g${generation}:${key}. -/
def hashInput (generation : Nat) (key : String) : List Char :=
  'g' :: (serNat generation ++ ':' :: key.data)

/-- normalizeKey: lowercase SHA-512 hex digest of the UTF-8 bytes of
g${generation}:${key} (src/index.ts 362-365, src/index.js 258-264). -/
def normalizeKey (generation : Nat) (key : String) : String :=
  String.mk (sha512HexChars (utf8Encode (hashInput generation key)))

/-! ## The cache operation engine

`runGet` embeds the body of `get` (src/index.ts 168-273; src/index.js
43-158 differs only in timing instrumentation): the promise executor
logs READ_START, arms the timer, issues the store read, and the race is
resolved by the `isTimeout` flag and `clearTimeout`. A schedule says
which of the timer and the store response fires first (or whether the
store never responds). The logger is an optional injected capability
`EVENT → Bool` where `true` means its `log` call throws; the source
calls it unguarded inside `#log`. -/

inductive EVENT where
  | REDIS_CACHE_INITIALIZED
  | REDIS_CACHE_JSON_PARSING_FAILED
  | REDIS_CACHE_JSON_STRINGIFY_FAILED
  | REDIS_CACHE_READ_DONE
  | REDIS_CACHE_READ_ERROR
  | REDIS_CACHE_READ_KEY_NOT_FOUND
  | REDIS_CACHE_READ_START
  | REDIS_CACHE_READ_TIMEOUT
  | REDIS_CACHE_WRITE_DONE
  | REDIS_CACHE_WRITE_ERROR
  | REDIS_CACHE_WRITE_FAILED
  | REDIS_CACHE_WRITE_START
deriving DecidableEq

/-- A logger capability: for each event, whether its log call throws. -/
def Logger : Type := EVENT → Bool

/-- The ioredis GET callback arguments (error, data): an error, or data
that is either null (`none`) or the stored string. -/
inductive StoreResp where
  | err : StoreResp
  | ok (data : Option String) : StoreResp

/-- Outcome of a get promise: resolved with the parsed value, rejected
with a descript error carrying the event id, or rejected with the raw
exception a throwing logger raised inside the promise executor. -/
inductive GOutcome where
  | success (v : Json) : GOutcome
  | failure (id : EVENT) : GOutcome
  | thrown : GOutcome

structure GetTrace where
  isTimeout : Bool
  timerCleared : Bool
  settled : Option GOutcome
  events : List EVENT
  loggerCalls : List EVENT

def initialGetTrace : GetTrace := ⟨false, false, none, [], []⟩

/-- One #log call (src/index.ts 367-371): the event is dispatched, and
the logger (when present) is invoked on it. -/
def logStep (lg : Option Logger) (e : EVENT) (t : GetTrace) : GetTrace :=
  { t with
    events := t.events ++ [e],
    loggerCalls := t.loggerCalls ++ (match lg with | some _ => [e] | none => []) }

/-- Whether the #log call throws: only a present logger whose log throws. -/
def logThrows (lg : Option Logger) (e : EVENT) : Bool :=
  match lg with
  | some f => f e
  | none => false

/-- Promise settlement: the first resolve/reject wins, later ones are no-ops. -/
def settle (t : GetTrace) (o : GOutcome) : GetTrace :=
  if t.settled.isSome then t else { t with settled := some o }

/-- The timer callback (src/index.ts 181-197): fires only if not cleared;
sets the flag, logs READ_TIMEOUT, rejects. A throw while logging aborts
the callback before the reject. -/
def timerFire (lg : Option Logger) (t : GetTrace) : GetTrace :=
  if t.timerCleared then t
  else
    let t1 := logStep lg .REDIS_CACHE_READ_TIMEOUT { t with isTimeout := true }
    if logThrows lg .REDIS_CACHE_READ_TIMEOUT then t1
    else settle t1 (.failure .REDIS_CACHE_READ_TIMEOUT)

/-- The store-read callback (src/index.ts 199-271): a late response
(isTimeout already set) returns at once; otherwise the timer is cleared
and the error / !data / JSON.parse branches run. `!data` is the
JavaScript falsiness test: true for null and for the empty string. -/
def storeRespond (lg : Option Logger) (r : StoreResp) (t : GetTrace) : GetTrace :=
  if t.isTimeout then t
  else
    let t0 := { t with timerCleared := true }
    match r with
    | .err =>
      let t1 := logStep lg .REDIS_CACHE_READ_ERROR t0
      if logThrows lg .REDIS_CACHE_READ_ERROR then t1
      else settle t1 (.failure .REDIS_CACHE_READ_ERROR)
    | .ok none =>
      let t1 := logStep lg .REDIS_CACHE_READ_KEY_NOT_FOUND t0
      if logThrows lg .REDIS_CACHE_READ_KEY_NOT_FOUND then t1
      else settle t1 (.failure .REDIS_CACHE_READ_KEY_NOT_FOUND)
    | .ok (some s) =>
      if s.isEmpty then
        let t1 := logStep lg .REDIS_CACHE_READ_KEY_NOT_FOUND t0
        if logThrows lg .REDIS_CACHE_READ_KEY_NOT_FOUND then t1
        else settle t1 (.failure .REDIS_CACHE_READ_KEY_NOT_FOUND)
      else
        match jsonParse s with
        | none =>
          let t1 := logStep lg .REDIS_CACHE_JSON_PARSING_FAILED t0
          if logThrows lg .REDIS_CACHE_JSON_PARSING_FAILED then t1
          else settle t1 (.failure .REDIS_CACHE_JSON_PARSING_FAILED)
        | some v =>
          let t1 := logStep lg .REDIS_CACHE_READ_DONE t0
          if logThrows lg .REDIS_CACHE_READ_DONE then t1
          else settle t1 (.success v)

/-- Which of the two asynchronous completions fires first. `timerFirst`
also delivers the late store response afterwards; `timerOnly` is a store
that never responds; `storeFirst` also lets the (cleared) timer deadline
pass afterwards. -/
inductive GetSched where
  | storeFirst (r : StoreResp) : GetSched
  | timerFirst (r : StoreResp) : GetSched
  | timerOnly : GetSched

/-- One whole run of get (src/index.ts 168-273): the executor logs
READ_START (a throw there rejects the promise with the raw exception and
nothing else runs), then the race is resolved per the schedule. -/
def runGet (lg : Option Logger) (sched : GetSched) : GetTrace :=
  let t1 := logStep lg .REDIS_CACHE_READ_START initialGetTrace
  if logThrows lg .REDIS_CACHE_READ_START then settle t1 .thrown
  else
    match sched with
    | .storeFirst r => timerFire lg (storeRespond lg r t1)
    | .timerFirst r => storeRespond lg r (timerFire lg t1)
    | .timerOnly => timerFire lg t1

/-! ## The set pipeline -/

/-- A JavaScript value handed to set: a serializable JSON value, or a
value on which JSON.stringify throws (e.g. a circular structure). -/
inductive JsValue where
  | json (j : Json) : JsValue
  | circular : JsValue

/-- JSON.stringify embedded on the set input domain: `none` models the
thrown TypeError of a circular structure. -/
def stringifyJs : JsValue → Option String
  | .json j => some (serializeJson j)
  | .circular => none

/-- Outcome of a set promise (no value on success). -/
inductive SOutcome where
  | success : SOutcome
  | failure (id : EVENT) : SOutcome
  | thrown : SOutcome

/-- Trace of one set run: store writes (normalizedKey, payload, ttl seconds),
events dispatched, logger invocations, and settlement. -/
structure SetTrace where
  writes : List (String × String × Nat)
  events : List EVENT
  loggerCalls : List EVENT
  settled : Option SOutcome

/-- The ioredis SET callback arguments (error, done). -/
inductive WriteResp where
  | err : WriteResp
  | ok (ack : Bool) : WriteResp

/-- Store-write callback branches shared by both set variants
(src/index.ts 312-353, src/index.js 206-249). -/
def writeCallback (lg : Option Logger) (resp : WriteResp)
    (writes : List (String × String × Nat)) (evs lcs : List EVENT) : SetTrace :=
  match resp with
  | .err =>
    let evs1 := evs ++ [EVENT.REDIS_CACHE_WRITE_ERROR]
    let lcs1 := lcs ++ (match lg with | some _ => [EVENT.REDIS_CACHE_WRITE_ERROR] | none => [])
    if logThrows lg .REDIS_CACHE_WRITE_ERROR then ⟨writes, evs1, lcs1, none⟩
    else ⟨writes, evs1, lcs1, some (.failure .REDIS_CACHE_WRITE_ERROR)⟩
  | .ok false =>
    let evs1 := evs ++ [EVENT.REDIS_CACHE_WRITE_FAILED]
    let lcs1 := lcs ++ (match lg with | some _ => [EVENT.REDIS_CACHE_WRITE_FAILED] | none => [])
    if logThrows lg .REDIS_CACHE_WRITE_FAILED then ⟨writes, evs1, lcs1, none⟩
    else ⟨writes, evs1, lcs1, some (.failure .REDIS_CACHE_WRITE_FAILED)⟩
  | .ok true =>
    let evs1 := evs ++ [EVENT.REDIS_CACHE_WRITE_DONE]
    let lcs1 := lcs ++ (match lg with | some _ => [EVENT.REDIS_CACHE_WRITE_DONE] | none => [])
    if logThrows lg .REDIS_CACHE_WRITE_DONE then ⟨writes, evs1, lcs1, none⟩
    else ⟨writes, evs1, lcs1, some .success⟩

/-- One whole run of the TypeScript variant's set (src/index.ts 275-355):
undefined value short-circuits to a resolved promise before any event or
store call; otherwise WRITE_START is logged, the value is stringified
(failure: JSON_STRINGIFY_FAILED, SerializationError, no store call), and
the write is issued with the EX ttl. -/
def tsSet (lg : Option Logger) (generation : Nat) (key : String)
    (value : Option JsValue) (maxage : Nat) (resp : WriteResp) : SetTrace :=
  match value with
  | none => ⟨[], [], [], some .success⟩
  | some v =>
    let evs := [EVENT.REDIS_CACHE_WRITE_START]
    let lcs := match lg with | some _ => [EVENT.REDIS_CACHE_WRITE_START] | none => []
    if logThrows lg .REDIS_CACHE_WRITE_START then ⟨[], evs, lcs, some .thrown⟩
    else
      match stringifyJs v with
      | none =>
        let evs1 := evs ++ [EVENT.REDIS_CACHE_JSON_STRINGIFY_FAILED]
        let lcs1 := lcs ++ (match lg with | some _ => [EVENT.REDIS_CACHE_JSON_STRINGIFY_FAILED] | none => [])
        if logThrows lg .REDIS_CACHE_JSON_STRINGIFY_FAILED then ⟨[], evs1, lcs1, some .thrown⟩
        else ⟨[], evs1, lcs1, some (.failure .REDIS_CACHE_JSON_STRINGIFY_FAILED)⟩
      | some json =>
        writeCallback lg resp [(normalizeKey generation key, json, maxage)] evs lcs

/-- Input value of the JavaScript variant's set: the three narrowed
fields (absent = undefined property, dropped by JSON.stringify) plus
arbitrary extraneous fields, which the projection never reads. -/
structure HttpInput where
  status_code : Option JsValue
  headers : Option JsValue
  result : Option JsValue
  extra : List (String × JsValue)

/-- The narrowing projection (src/index.js 176-180): the object literal
keeps exactly status_code, headers, result. -/
def projPairs (v : HttpInput) : List (String × JsValue) :=
  (match v.status_code with | some x => [("status_code", x)] | none => []) ++
  (match v.headers with | some x => [("headers", x)] | none => []) ++
  (match v.result with | some x => [("result", x)] | none => [])

/-- JSON.stringify of an object of JavaScript values: throws (none) when
a member value is circular. -/
def unwrapPairs : List (String × JsValue) → Option (List (String × Json))
  | [] => some []
  | (k, .json j) :: rest => (unwrapPairs rest).map (fun ps => (k, j) :: ps)
  | (_, .circular) :: _ => none

/-- Encode step of the JavaScript variant: stringify the projected object. -/
def encodeHttp (v : HttpInput) : Option String :=
  (unwrapPairs (projPairs v)).map (fun ps => serializeJson (Json.obj ps))

/-- One whole run of the JavaScript variant's set (src/index.js 160-251):
undefined value returns undefined at once (no promise, no event, no
store call; an awaiting caller observes success); otherwise WRITE_START,
the narrowing projection, JSON.stringify, and the store write. -/
def jsSet (lg : Option Logger) (generation : Nat) (key : String)
    (value : Option HttpInput) (maxage : Nat) (resp : WriteResp) : SetTrace :=
  match value with
  | none => ⟨[], [], [], some .success⟩
  | some v =>
    let evs := [EVENT.REDIS_CACHE_WRITE_START]
    let lcs := match lg with | some _ => [EVENT.REDIS_CACHE_WRITE_START] | none => []
    if logThrows lg .REDIS_CACHE_WRITE_START then ⟨[], evs, lcs, some .thrown⟩
    else
      match encodeHttp v with
      | none =>
        let evs1 := evs ++ [EVENT.REDIS_CACHE_JSON_STRINGIFY_FAILED]
        let lcs1 := lcs ++ (match lg with | some _ => [EVENT.REDIS_CACHE_JSON_STRINGIFY_FAILED] | none => [])
        if logThrows lg .REDIS_CACHE_JSON_STRINGIFY_FAILED then ⟨[], evs1, lcs1, some .thrown⟩
        else ⟨[], evs1, lcs1, some (.failure .REDIS_CACHE_JSON_STRINGIFY_FAILED)⟩
      | some json =>
        writeCallback lg resp [(normalizeKey generation key, json, maxage)] evs lcs

/-- Terminal lifecycle events of the get state machine (spec section 4.3:
all states except START are terminal). -/
def isTerminalGetEvent : EVENT → Bool
  | .REDIS_CACHE_READ_TIMEOUT => true
  | .REDIS_CACHE_READ_ERROR => true
  | .REDIS_CACHE_READ_KEY_NOT_FOUND => true
  | .REDIS_CACHE_JSON_PARSING_FAILED => true
  | .REDIS_CACHE_READ_DONE => true
  | _ => false

/-- Modelled from the spec (amended C3): the outcome the store-wins
branches must produce — error maps to a READ_ERROR failure, a falsy
payload (null or the empty string) to a KeyNotFound failure, a nonempty
payload that fails to decode to a SerializationError failure, a decodable
payload to success with exactly the decoded value. -/
def expectedGetOutcome : StoreResp → GOutcome
  | .err => .failure .REDIS_CACHE_READ_ERROR
  | .ok none => .failure .REDIS_CACHE_READ_KEY_NOT_FOUND
  | .ok (some s) =>
    if s.isEmpty then .failure .REDIS_CACHE_READ_KEY_NOT_FOUND
    else
      match jsonParse s with
      | none => .failure .REDIS_CACHE_JSON_PARSING_FAILED
      | some v => .success v

/-- Modelled from the spec (amended C3): the terminal event of each store-wins branch. -/
def expectedGetEvent : StoreResp → EVENT
  | .err => .REDIS_CACHE_READ_ERROR
  | .ok none => .REDIS_CACHE_READ_KEY_NOT_FOUND
  | .ok (some s) =>
    if s.isEmpty then .REDIS_CACHE_READ_KEY_NOT_FOUND
    else
      match jsonParse s with
      | none => .REDIS_CACHE_JSON_PARSING_FAILED
      | some _ => .REDIS_CACHE_READ_DONE

/-! ## Serialization round-trip and digit-rendering lemmas -/

theorem hexDigitChar_toNat {n : Nat} (h : n < 10) : (hexDigitChar n).toNat = 48 + n := by
  interval_cases n <;> decide

theorem hexDigitChar_isDigit {n : Nat} (h : n < 10) : (hexDigitChar n).isDigit = true := by
  interval_cases n <;> decide

theorem hexVal_hexDigitChar {n : Nat} (h : n < 16) : hexVal (hexDigitChar n) = some n := by
  interval_cases n <;> decide

theorem natDigitsRevF_fuel : ∀ f1 : Nat, ∀ f2 n : Nat, n < f1 → n < f2 →
    natDigitsRevF f1 n = natDigitsRevF f2 n := by
  intro f1
  induction f1 with
  | zero => intro f2 n h1 _; omega
  | succ f ih =>
    intro f2 n h1 h2
    match f2, h2 with
    | f2 + 1, _ =>
      by_cases h : n < 10
      · simp [natDigitsRevF, h]
      · have hd : n / 10 < n := Nat.div_lt_self (by omega) (by omega)
        simp only [natDigitsRevF, if_neg h]
        rw [ih f2 (n / 10) (by omega) (by omega)]

theorem natDigitsRevF_mem_isDigit : ∀ fuel n c, n < fuel → c ∈ natDigitsRevF fuel n →
    c.isDigit = true := by
  intro fuel
  induction fuel with
  | zero => intro n c h1 _; omega
  | succ f ih =>
    intro n c h1 hc
    by_cases h : n < 10
    · simp [natDigitsRevF, h] at hc
      subst hc; exact hexDigitChar_isDigit h
    · have hd : n / 10 < n := Nat.div_lt_self (by omega) (by omega)
      simp only [natDigitsRevF, if_neg h, List.mem_cons] at hc
      rcases hc with hc | hc
      · subst hc; exact hexDigitChar_isDigit (Nat.mod_lt _ (by omega))
      · exact ih (n / 10) c (by omega) hc

theorem natDigitsRevF_ne_nil (n : Nat) : natDigitsRevF (n + 1) n ≠ [] := by
  by_cases h : n < 10 <;> simp [natDigitsRevF, h]

theorem serNat_ne_nil (n : Nat) : serNat n ≠ [] := by
  simp [serNat, natDigitsRevF_ne_nil n]

theorem serNat_mem_isDigit {n : Nat} {c : Char} (hc : c ∈ serNat n) : c.isDigit = true := by
  rw [serNat, List.mem_reverse] at hc
  exact natDigitsRevF_mem_isDigit (n + 1) n c (by omega) hc

theorem serNat_head : ∀ n : Nat, ∃ d ds, serNat n = d :: ds ∧ d.isDigit = true := by
  intro n
  match h : serNat n with
  | [] => exact absurd h (serNat_ne_nil n)
  | d :: ds =>
    exact ⟨d, ds, rfl, serNat_mem_isDigit (by rw [h]; exact List.mem_cons_self d ds)⟩

theorem natDigitsRevF_val : ∀ fuel n acc, n < fuel →
    ((natDigitsRevF fuel n).reverse).foldl (fun a c => a * 10 + (c.toNat - 48)) acc =
      acc * 10 ^ (natDigitsRevF fuel n).length + n := by
  intro fuel
  induction fuel with
  | zero => intro n acc h; omega
  | succ f ih =>
    intro n acc h1
    by_cases h : n < 10
    · simp [natDigitsRevF, h, List.foldl, hexDigitChar_toNat h]
      try omega
    · have hd : n / 10 < n := Nat.div_lt_self (by omega) (by omega)
      simp only [natDigitsRevF, if_neg h, List.reverse_cons, List.foldl_append, List.foldl,
        List.length_cons]
      rw [ih (n / 10) acc (by omega)]
      rw [hexDigitChar_toNat (Nat.mod_lt _ (show 0 < 10 by omega))]
      have hdm := Nat.div_add_mod n 10
      ring_nf
      omega

theorem parseDigits_append : ∀ ds r acc, (∀ c ∈ ds, c.isDigit = true) →
    (∀ c, r.head? = some c → c.isDigit = false) →
    parseDigits (ds ++ r) acc = (ds.foldl (fun a c => a * 10 + (c.toNat - 48)) acc, r) := by
  intro ds
  induction ds with
  | nil =>
    intro r acc _ hr
    match r with
    | [] => rfl
    | c :: r' => simp [parseDigits, hr c rfl]
  | cons d ds ih =>
    intro r acc hds hr
    simp only [List.cons_append, parseDigits, hds d (List.mem_cons_self d ds), if_pos]
    · exact ih r _ (fun c hc => hds c (List.mem_cons_of_mem d hc)) hr

theorem parseDigits_serNat (n : Nat) (r : List Char) (acc : Nat)
    (hr : ∀ c, r.head? = some c → c.isDigit = false) :
    parseDigits (serNat n ++ r) acc = (acc * 10 ^ (serNat n).length + n, r) := by
  rw [parseDigits_append (serNat n) r acc (fun c hc => serNat_mem_isDigit hc) hr]
  rw [serNat, natDigitsRevF_val (n + 1) n acc (by omega), List.length_reverse]

theorem serNat_inj {n1 n2 : Nat} (h : serNat n1 = serNat n2) : n1 = n2 := by
  have h1 := parseDigits_serNat n1 [] 0 (by intro c hc; simp at hc)
  have h2 := parseDigits_serNat n2 [] 0 (by intro c hc; simp at hc)
  rw [h, h2] at h1
  simpa using h1.symm

theorem parseStringBody_ser : ∀ cs r, parseStringBody (serStrBody cs ++ '"' :: r) = some (cs, r) := by
  intro cs
  induction cs with
  | nil =>
    intro r
    show parseStringBody (([] : List (List Char)).flatten ++ '"' :: r) = some ([], r)
    rfl
  | cons c cs ih =>
    intro r
    have hbody : serStrBody (c :: cs) = serChar c ++ serStrBody cs := by
      simp [serStrBody]
    rw [hbody, List.append_assoc]
    by_cases h1 : c = '"'
    · subst h1
      rw [serChar]
      simp [parseStringBody, escChar, ih]
    · by_cases h2 : c = '\\'
      · subst h2
        rw [serChar]
        norm_num
        simp [parseStringBody, escChar, ih]
      · by_cases h3 : c = '\x08'
        · subst h3
          rw [serChar]
          norm_num
          simp [parseStringBody, escChar, ih]
        · by_cases h4 : c = '\x09'
          · subst h4
            rw [serChar]
            norm_num
            simp [parseStringBody, escChar, ih]
          · by_cases h5 : c = '\x0a'
            · subst h5
              rw [serChar]
              norm_num
              simp [parseStringBody, escChar, ih]
            · by_cases h6 : c = '\x0c'
              · subst h6
                rw [serChar]
                norm_num
                simp [parseStringBody, escChar, ih]
              · by_cases h7 : c = '\x0d'
                · subst h7
                  rw [serChar]
                  norm_num
                  simp [parseStringBody, escChar, ih]
                · by_cases h8 : c.toNat < 32
                  · have hchar : serChar c = ['\\', 'u', '0', '0',
                        hexDigitChar (c.toNat / 16), hexDigitChar (c.toNat % 16)] := by
                      rw [serChar]
                      simp [h1, h2, h3, h4, h5, h6, h7, h8]
                    rw [hchar]
                    have e0 : hexVal '0' = some 0 := by decide
                    have e3 := hexVal_hexDigitChar (show c.toNat / 16 < 16 by omega)
                    have e4 := hexVal_hexDigitChar (show c.toNat % 16 < 16 by omega)
                    simp only [List.cons_append, List.nil_append, parseStringBody, e0, e3, e4]
                    have hval : ((0 * 16 + 0) * 16 + c.toNat / 16) * 16 + c.toNat % 16 = c.toNat := by
                      omega
                    rw [hval]
                    have hmk : mkCharOf c.toNat = some (Char.ofNat c.toNat) := by
                      rw [mkCharOf, if_pos (by omega)]
                    rw [hmk, Char.ofNat_toNat]
                    simp [ih]
                  · have hchar : serChar c = [c] := by
                      rw [serChar]; simp [h1, h2, h3, h4, h5, h6, h7, h8]
                    rw [hchar]
                    simp only [List.cons_append, List.nil_append]
                    rw [parseStringBody.eq_6 c _ (fun h => h1 h)
                      (fun _ _ _ _ _ hc _ => h2 hc) (fun _ _ hc _ => h2 hc) (fun hc _ => h2 hc)]
                    rw [if_neg h8]
                    simp [ih]

theorem serJson_ne_nil : ∀ j : Json, serJson j ≠ [] := by
  intro j
  match j with
  | .null | .bool true | .bool false => decide
  | .num n =>
    simp only [serJson, serInt]
    split
    · simp
    · exact serNat_ne_nil _
  | .str s => simp [serJson, serStr]
  | .arr es => simp [serJson]
  | .obj ms => simp [serJson]

theorem isDigit_notSpecial {d : Char} (h : d.isDigit = true) :
    d ≠ ']' ∧ d ≠ '}' ∧ d ≠ ',' ∧ d ≠ '-' := by
  refine ⟨?_, ?_, ?_, ?_⟩ <;> intro he <;> subst he <;> simp at h

theorem serJson_head : ∀ j : Json, ∃ c cs, serJson j = c :: cs ∧ c ≠ ']' ∧ c ≠ '}' ∧ c ≠ ',' := by
  intro j
  match j with
  | .null => exact ⟨'n', _, rfl, by decide, by decide, by decide⟩
  | .bool true => exact ⟨'t', _, rfl, by decide, by decide, by decide⟩
  | .bool false => exact ⟨'f', _, rfl, by decide, by decide, by decide⟩
  | .num n =>
    by_cases hn : n < 0
    · refine ⟨'-', serNat (-n).toNat, ?_, by decide, by decide, by decide⟩
      simp [serJson, serInt, hn]
    · obtain ⟨d, ds, hser, hdig⟩ := serNat_head n.toNat
      obtain ⟨hd1, hd2, hd3, _⟩ := isDigit_notSpecial hdig
      refine ⟨d, ds, ?_, hd1, hd2, hd3⟩
      simp [serJson, serInt, hn, hser]
  | .str s => exact ⟨'"', _, rfl, by decide, by decide, by decide⟩
  | .arr es => exact ⟨'[', _, rfl, by decide, by decide, by decide⟩
  | .obj ms => exact ⟨'{', _, rfl, by decide, by decide, by decide⟩

theorem serElems_expand : ∀ (e : Json) (es : List Json),
    ∃ tail, serElems (e :: es) = serJson e ++ tail ∧
      (es = [] → tail = []) ∧ (es ≠ [] → tail = ',' :: serElems es) := by
  intro e es
  match es with
  | [] => exact ⟨[], by simp [serElems], fun _ => rfl, fun h => absurd rfl h⟩
  | x :: xs =>
    exact ⟨',' :: serElems (x :: xs), rfl, fun h => by simp at h, fun _ => rfl⟩

theorem serMembers_expand : ∀ (k : String) (v : Json) (ms : List (String × Json)),
    ∃ tail, serMembers ((k, v) :: ms) = serStr k ++ ':' :: (serJson v ++ tail) ∧
      (ms = [] → tail = []) ∧ (ms ≠ [] → tail = ',' :: serMembers ms) := by
  intro k v ms
  match ms with
  | [] => exact ⟨[], by simp [serMembers], fun _ => rfl, fun h => absurd rfl h⟩
  | x :: xs =>
    refine ⟨',' :: serMembers (x :: xs), ?_, fun h => by simp at h, fun _ => rfl⟩
    simp [serMembers]

theorem head_notDigit {r : List Char} (hr : ∀ c, r.head? = some c → c = ',' ∨ c = ']' ∨ c = '}') :
    ∀ c, r.head? = some c → c.isDigit = false := by
  intro c hc
  rcases hr c hc with h | h | h <;> subst h <;> decide

theorem parse_ser_round : ∀ fuel : Nat,
    (∀ j r, (serJson j).length < fuel → (∀ c, r.head? = some c → c = ',' ∨ c = ']' ∨ c = '}') →
      parseValue fuel (serJson j ++ r) = some (j, r)) ∧
    (∀ es r, es ≠ [] → (serElems es).length + 1 < fuel →
      parseElems fuel (serElems es ++ ']' :: r) = some (es, ']' :: r)) ∧
    (∀ ms r, ms ≠ [] → (serMembers ms).length + 1 < fuel →
      parseMembers fuel (serMembers ms ++ '}' :: r) = some (ms, '}' :: r)) := by
  intro fuel
  induction fuel with
  | zero =>
    refine ⟨?_, ?_, ?_⟩ <;> intros <;> omega
  | succ fuel ih =>
    obtain ⟨ihv, ihe, ihm⟩ := ih
    refine ⟨?_, ?_, ?_⟩
    · intro j r hlen hr
      match j with
      | .null =>
        rw [show serJson .null = 'n' :: 'u' :: 'l' :: 'l' :: [] from rfl]
        simp [parseValue]
      | .bool true =>
        rw [show serJson (.bool true) = 't' :: 'r' :: 'u' :: 'e' :: [] from rfl]
        simp [parseValue]
      | .bool false =>
        rw [show serJson (.bool false) = 'f' :: 'a' :: 'l' :: 's' :: 'e' :: [] from rfl]
        simp [parseValue]
      | .num n =>
        by_cases hn : n < 0
        · have hser : serJson (Json.num n) = '-' :: serNat (-n).toNat := by
            simp [serJson, serInt, hn]
          obtain ⟨d, ds, hd, hdig⟩ := serNat_head (-n).toNat
          rw [hser]
          simp only [List.cons_append]
          rw [parseValue.eq_def]
          dsimp only
          rw [if_pos rfl]
          rw [hd]
          simp only [List.cons_append]
          rw [if_pos hdig]
          rw [← List.cons_append, ← hd]
          rw [parseDigits_serNat _ r 0 (head_notDigit hr)]
          have : ((-n).toNat : Int) = -n := Int.toNat_of_nonneg (by omega)
          simp [this]
        · have hser : serJson (Json.num n) = serNat n.toNat := by
            simp [serJson, serInt, hn]
          obtain ⟨d, ds, hd, hdig⟩ := serNat_head n.toNat
          obtain ⟨_, _, _, hdash⟩ := isDigit_notSpecial hdig
          rw [hser, hd]
          simp only [List.cons_append]
          rw [parseValue.eq_def]
          dsimp only
          rw [if_neg hdash, if_pos hdig]
          rw [← List.cons_append, ← hd]
          rw [parseDigits_serNat _ r 0 (head_notDigit hr)]
          have : (n.toNat : Int) = n := Int.toNat_of_nonneg (by omega)
          simp [this]
      | .str s =>
        have hser : serJson (Json.str s) ++ r = '"' :: (serStrBody s.data ++ '"' :: r) := by
          simp [serJson, serStr]
        rw [hser]
        rw [parseValue.eq_def]
        dsimp only
        rw [if_neg (by decide : ¬('"' = '-')), if_neg (by decide : ¬('"'.isDigit = true)),
          if_neg (by decide : ¬('"' = 'n')), if_neg (by decide : ¬('"' = 't')),
          if_neg (by decide : ¬('"' = 'f')), if_pos rfl]
        rw [parseStringBody_ser s.data r]
      | .arr [] => simp [serJson, serElems, parseValue]
      | .arr (e :: es) =>
        obtain ⟨tail, htail, _, _⟩ := serElems_expand e es
        obtain ⟨c0, cs0, hc0, hc0r, _, _⟩ := serJson_head e
        have hser : serJson (Json.arr (e :: es)) ++ r =
            '[' :: (serElems (e :: es) ++ ']' :: r) := by
          simp [serJson]
        rw [hser]
        rw [parseValue.eq_def]
        dsimp only
        rw [if_neg (by decide : ¬('[' = '-')), if_neg (by decide : ¬('['.isDigit = true)),
          if_neg (by decide : ¬('[' = 'n')), if_neg (by decide : ¬('[' = 't')),
          if_neg (by decide : ¬('[' = 'f')), if_neg (by decide : ¬('[' = '"')), if_pos rfl]
        have hhead : (serElems (e :: es) ++ ']' :: r).head? = some c0 := by
          rw [htail, hc0]
          simp
        rw [hhead]
        rw [if_neg (by simp [hc0r])]
        rw [ihe (e :: es) r (by simp) (by simp only [serJson] at hlen; simp at hlen; omega)]
        rfl
      | .obj [] => simp [serJson, serMembers, parseValue]
      | .obj ((k, v) :: ms) =>
        have hser : serJson (Json.obj ((k, v) :: ms)) ++ r =
            '{' :: (serMembers ((k, v) :: ms) ++ '}' :: r) := by
          simp [serJson]
        rw [hser]
        rw [parseValue.eq_def]
        dsimp only
        rw [if_neg (by decide : ¬('{' = '-')), if_neg (by decide : ¬('{'.isDigit = true)),
          if_neg (by decide : ¬('{' = 'n')), if_neg (by decide : ¬('{' = 't')),
          if_neg (by decide : ¬('{' = 'f')), if_neg (by decide : ¬('{' = '"')),
          if_neg (by decide : ¬('{' = '[')), if_pos rfl]
        have hhead : (serMembers ((k, v) :: ms) ++ '}' :: r).head? = some '"' := by
          obtain ⟨tail, htail, _, _⟩ := serMembers_expand k v ms
          rw [htail]
          simp [serStr]
        rw [hhead]
        rw [if_neg (by decide)]
        rw [ihm ((k, v) :: ms) r (by simp) (by simp only [serJson] at hlen; simp at hlen; omega)]
        rfl
    · intro es r hne hlen
      match es with
      | [] => exact absurd rfl hne
      | x :: xs =>
        obtain ⟨tail, htail, htnil, htcons⟩ := serElems_expand x xs
        rw [parseElems.eq_def]
        dsimp only
        match xs with
        | [] =>
          have hlen2 : (serJson x).length < fuel := by
            have h2 := hlen
            rw [htail, htnil rfl, List.append_nil] at h2
            omega
          rw [htail, htnil rfl, List.append_nil]
          rw [ihv x (']' :: r) hlen2 (by intro c hc; simp at hc; subst hc; tauto)]
          rfl
        | y :: ys =>
          have hx1 : 1 ≤ (serJson x).length := List.length_pos.mpr (serJson_ne_nil x)
          have h2 := hlen
          rw [htail, htcons (by simp)] at h2
          simp only [List.length_append, List.length_cons] at h2
          rw [htail, htcons (by simp), List.append_assoc]
          simp only [List.cons_append]
          rw [ihv x (',' :: (serElems (y :: ys) ++ ']' :: r)) (by omega)
            (by intro c hc; simp at hc; subst hc; tauto)]
          simp only []
          rw [ihe (y :: ys) r (by simp) (by omega)]
    · intro ms r hne hlen
      match ms with
      | [] => exact absurd rfl hne
      | (k, v) :: ms' =>
        obtain ⟨tail, htail, htnil, htcons⟩ := serMembers_expand k v ms'
        rw [parseMembers.eq_def]
        dsimp only
        match ms' with
        | [] =>
          have h2 := hlen
          rw [htail, htnil rfl, List.append_nil] at h2
          simp only [List.length_append, List.length_cons, serStr, List.cons_append] at h2 ⊢
          rw [htail, htnil rfl, List.append_nil]
          have hs : ('"' :: (serStrBody k.data ++ ['"'])) ++ ':' :: serJson v ++ '}' :: r =
              '"' :: (serStrBody k.data ++ '"' :: (':' :: (serJson v ++ '}' :: r))) := by
            simp
          rw [show serStr k = '"' :: (serStrBody k.data ++ ['"']) from rfl] at *
          rw [hs]
          simp only []
          rw [parseStringBody_ser k.data]
          simp only []
          rw [ihv v ('}' :: r) (by simp [List.length_append] at h2; omega)
            (by intro c hc; simp at hc; subst hc; tauto)]
          rfl
        | m2 :: ms2 =>
          have hv1 : 1 ≤ (serJson v).length := List.length_pos.mpr (serJson_ne_nil v)
          have h2 := hlen
          rw [htail, htcons (by simp)] at h2
          simp only [List.length_append, List.length_cons, serStr, List.cons_append] at h2
          rw [htail, htcons (by simp)]
          have hs : ('"' :: (serStrBody k.data ++ ['"'])) ++ ':' :: (serJson v ++ ',' :: serMembers (m2 :: ms2)) ++ '}' :: r =
              '"' :: (serStrBody k.data ++ '"' :: (':' :: (serJson v ++ ',' :: (serMembers (m2 :: ms2) ++ '}' :: r)))) := by
            simp
          rw [show serStr k = '"' :: (serStrBody k.data ++ ['"']) from rfl] at *
          rw [hs]
          simp only []
          rw [parseStringBody_ser k.data]
          simp only []
          rw [ihv v (',' :: (serMembers (m2 :: ms2) ++ '}' :: r))
            (by simp [List.length_append] at h2; omega)
            (by intro c hc; simp at hc; subst hc; tauto)]
          simp only []
          rw [ihm (m2 :: ms2) r (by simp) (by simp [List.length_append] at h2; omega)]

theorem jsonParse_serializeJson (j : Json) : jsonParse (serializeJson j) = some j := by
  have h := (parse_ser_round ((serJson j).length + 1)).1 j [] (by omega)
    (by intro c hc; simp at hc)
  rw [List.append_nil] at h
  rw [jsonParse]
  rw [show (serializeJson j).data = serJson j from rfl]
  rw [h]


/-! ## Shape of the SHA-512 digest -/

theorem beBytes_length : ∀ k x, (beBytes k x).length = k := by
  intro k
  induction k with
  | zero => intro x; rfl
  | succ k ih => intro x; simp [beBytes, ih]

theorem beBytes_mem_lt : ∀ k x b, b ∈ beBytes k x → b < 256 := by
  intro k
  induction k with
  | zero => intro x b hb; simp [beBytes] at hb
  | succ k ih =>
    intro x b hb
    simp only [beBytes, List.mem_append, List.mem_singleton] at hb
    rcases hb with hb | hb
    · exact ih _ b hb
    · subst hb; exact Nat.mod_lt _ (by omega)

theorem hash8Bytes_length (hv : Hash8) : (hash8Bytes hv).length = 64 := by
  simp [hash8Bytes, beBytes_length]

theorem hash8Bytes_mem_lt (hv : Hash8) (b : Nat) (hb : b ∈ hash8Bytes hv) : b < 256 := by
  simp only [hash8Bytes, List.mem_append] at hb
  rcases hb with ((((((hb | hb) | hb) | hb) | hb) | hb) | hb) | hb <;>
    exact beBytes_mem_lt _ _ b hb

theorem sha512Bytes_length (msg : List Nat) : (sha512Bytes msg).length = 64 :=
  hash8Bytes_length _

theorem sha512Bytes_mem_lt (msg : List Nat) (b : Nat) (hb : b ∈ sha512Bytes msg) : b < 256 :=
  hash8Bytes_mem_lt _ b hb

theorem hexOfBytes_length (bs : List Nat) : (hexOfBytes bs).length = 2 * bs.length := by
  induction bs with
  | nil => rfl
  | cons b bs ih => simp [hexOfBytes] at ih ⊢; omega

theorem lowerHexChars_spec : ∀ n < 16, hexDigitChar n ∈ lowerHexChars := by
  intro n h
  interval_cases n <;> decide

theorem hexOfBytes_mem (bs : List Nat) (hbs : ∀ b ∈ bs, b < 256) :
    ∀ c ∈ hexOfBytes bs, c ∈ lowerHexChars := by
  intro c hc
  simp only [hexOfBytes, List.mem_flatten, List.mem_map] at hc
  obtain ⟨l, ⟨b, hb, rfl⟩, hcl⟩ := hc
  have hblt := hbs b hb
  simp only [List.mem_cons, List.mem_singleton] at hcl
  rcases hcl with rfl | rfl | h
  · exact lowerHexChars_spec _ (by omega)
  · exact lowerHexChars_spec _ (Nat.mod_lt _ (by omega))
  · simp at h

theorem sha512HexChars_length (msg : List Nat) : (sha512HexChars msg).length = 128 := by
  rw [sha512HexChars, hexOfBytes_length, sha512Bytes_length]

theorem sha512HexChars_mem (msg : List Nat) : ∀ c ∈ sha512HexChars msg, c ∈ lowerHexChars :=
  hexOfBytes_mem _ (fun b hb => sha512Bytes_mem_lt msg b hb)

set_option maxRecDepth 10000 in
/-- The key normalizer on the spec scenario input: the digest below is the
standard SHA-512 hex digest of the string g1:somekey. -/
theorem normalizeKey_somekey : normalizeKey 1 "somekey" =
    "e33d0afae8e08752efa1a467653931ae9ba60c6a3ea693e684a6a56ef3b18ba3c7e711edee33f99471d9bb2d02302e92512cc3c8513ab473bbe71d52b8f7e39a" := by
  decide

attribute [irreducible] sha512Blocks sha512Bytes sha512HexChars

theorem normalizeKey_data (g : Nat) (k : String) :
    normalizeKey g k = String.mk (sha512HexChars (utf8Encode (hashInput g k))) := rfl

theorem normalizeKey_length (g : Nat) (k : String) : (normalizeKey g k).data.length = 128 := by
  show (sha512HexChars (utf8Encode (hashInput g k))).length = 128
  exact sha512HexChars_length _

theorem normalizeKey_mem (g : Nat) (k : String) :
    ∀ c ∈ (normalizeKey g k).data, c ∈ lowerHexChars := by
  show ∀ c ∈ sha512HexChars (utf8Encode (hashInput g k)), c ∈ lowerHexChars
  exact sha512HexChars_mem _

/-! ## The claims -/

/-- C2: for every generation g and logical key k the normalizer returns the
lowercase hexadecimal SHA-512 digest (128 hex characters, all lowercase hex
digits) of the UTF-8 bytes of the string g<g>:<k>, and it is pure; for key
somekey under generation 1 it returns the standard SHA-512 hex digest of
g1:somekey. -/
theorem normalize_key_sha512_hex :
    (∀ (g : Nat) (k : String),
      normalizeKey g k =
        String.mk (sha512HexChars (utf8Encode ('g' :: (serNat g ++ ':' :: k.data)))) ∧
      (normalizeKey g k).length = 128 ∧
      (∀ c ∈ (normalizeKey g k).data, c ∈ lowerHexChars) ∧
      normalizeKey g k = normalizeKey g k) ∧
    normalizeKey 1 "somekey" =
      "e33d0afae8e08752efa1a467653931ae9ba60c6a3ea693e684a6a56ef3b18ba3c7e711edee33f99471d9bb2d02302e92512cc3c8513ab473bbe71d52b8f7e39a" := by
  refine ⟨?_, normalizeKey_somekey⟩
  intro g k
  refine ⟨normalizeKey_data g k, ?_, normalizeKey_mem g k, rfl⟩
  show (normalizeKey g k).data.length = 128
  exact normalizeKey_length g k

/-- C1: for every schedule of the timer/store race, a get run with no logger
dispatches exactly one terminal lifecycle event, settles with exactly one
outcome (a success or a descript failure, never a raw thrown value), and a
store response that arrives after the timer has fired changes nothing: the
trace equals the trace of a store that never responded. -/
theorem get_race_single_terminal :
    (∀ sched : GetSched,
      (runGet none sched).events.countP (fun e => isTerminalGetEvent e) = 1 ∧
      (runGet none sched).settled.isSome = true ∧
      (runGet none sched).settled ≠ some GOutcome.thrown) ∧
    (∀ r : StoreResp, runGet none (.timerFirst r) = runGet none .timerOnly) := by
  have hlate : ∀ r : StoreResp, runGet none (.timerFirst r) = runGet none .timerOnly := by
    intro r
    simp [runGet, timerFire, storeRespond, logStep, settle, logThrows, initialGetTrace]
  refine ⟨?_, hlate⟩
  intro sched
  match sched with
  | .timerOnly =>
    refine ⟨by decide, by decide, ?_⟩
    rw [show (runGet none .timerOnly).settled =
      some (.failure .REDIS_CACHE_READ_TIMEOUT) from rfl]
    simp
  | .timerFirst r =>
    rw [hlate r]
    refine ⟨by decide, by decide, ?_⟩
    rw [show (runGet none .timerOnly).settled =
      some (.failure .REDIS_CACHE_READ_TIMEOUT) from rfl]
    simp
  | .storeFirst .err =>
    refine ⟨by decide, by decide, ?_⟩
    rw [show (runGet none (.storeFirst .err)).settled =
      some (.failure .REDIS_CACHE_READ_ERROR) from rfl]
    simp
  | .storeFirst (.ok none) =>
    refine ⟨by decide, by decide, ?_⟩
    rw [show (runGet none (.storeFirst (.ok none))).settled =
      some (.failure .REDIS_CACHE_READ_KEY_NOT_FOUND) from rfl]
    simp
  | .storeFirst (.ok (some s)) =>
    by_cases hs : s.isEmpty <;>
      simp [runGet, timerFire, storeRespond, logStep, settle, logThrows, initialGetTrace, hs]
    · decide
    · cases hp : jsonParse s <;> simp [hp] <;> decide

/-- C3 (counterexample): the claim as stated is false at the store response
carrying the empty string: the empty string is a value whose decoding fails
(JSON.parse of the empty string throws), so the claim requires a
SerializationError failure, but the code fails with KeyNotFound because the
!data test treats the empty string as a miss. -/
theorem get_branch_claim_counterexample :
    ¬ (∀ r : StoreResp,
      (r = .err → (runGet none (.storeFirst r)).settled =
        some (.failure .REDIS_CACHE_READ_ERROR)) ∧
      (r = .ok none → (runGet none (.storeFirst r)).settled =
        some (.failure .REDIS_CACHE_READ_KEY_NOT_FOUND)) ∧
      (∀ s, r = .ok (some s) → jsonParse s = none → (runGet none (.storeFirst r)).settled =
        some (.failure .REDIS_CACHE_JSON_PARSING_FAILED)) ∧
      (∀ s v, r = .ok (some s) → jsonParse s = some v → (runGet none (.storeFirst r)).settled =
        some (.success v))) := by
  intro h
  have h3 := (h (.ok (some ""))).2.2.1 "" rfl (by rfl)
  have hc : (runGet none (.storeFirst (.ok (some "")))).settled =
      some (.failure .REDIS_CACHE_READ_KEY_NOT_FOUND) := rfl
  rw [hc] at h3
  simp at h3

/-- C3 (amended): for every get call the store response wins, a store error
fails with StoreError (READ_ERROR), a falsy payload — null or the empty
string — fails with KeyNotFound (READ_KEY_NOT_FOUND), a nonempty payload
whose decoding fails fails with SerializationError (JSON_PARSING_FAILED),
and a decodable payload succeeds with exactly the decoded value (READ_DONE);
each branch emits exactly its terminal event after READ_START. -/
theorem get_store_branch_outcomes : ∀ r : StoreResp,
    (runGet none (.storeFirst r)).settled = some (expectedGetOutcome r) ∧
    (runGet none (.storeFirst r)).events = [.REDIS_CACHE_READ_START, expectedGetEvent r] := by
  intro r
  match r with
  | .err => exact ⟨rfl, rfl⟩
  | .ok none => exact ⟨rfl, rfl⟩
  | .ok (some s) =>
    by_cases hs : s.isEmpty <;>
      simp [runGet, timerFire, storeRespond, logStep, settle, logThrows, initialGetTrace,
        expectedGetOutcome, expectedGetEvent, hs]
    cases hp : jsonParse s <;> simp [hp]

/-- C10: a get call whose store responds without error but with an empty
string payload produces exactly the trace of a response with no value at
all — fails with KeyNotFound, emits READ_KEY_NOT_FOUND, and never attempts
decoding — even though the empty string does not parse as JSON. -/
theorem empty_payload_key_not_found :
    runGet none (.storeFirst (.ok (some ""))) = runGet none (.storeFirst (.ok none)) ∧
    (runGet none (.storeFirst (.ok (some "")))).settled =
      some (.failure .REDIS_CACHE_READ_KEY_NOT_FOUND) ∧
    (runGet none (.storeFirst (.ok (some "")))).events =
      [.REDIS_CACHE_READ_START, .REDIS_CACHE_READ_KEY_NOT_FOUND] ∧
    jsonParse "" = none :=
  ⟨rfl, rfl, rfl, rfl⟩

/-- C4: set with an absent (undefined) value resolves successfully as a
no-op in both variants: zero store writes, zero lifecycle events, zero
logger calls, for every logger, generation, key, ttl and store behaviour. -/
theorem set_absent_value_noop : ∀ (lg : Option Logger) (generation : Nat) (key : String)
    (maxage : Nat) (resp : WriteResp),
    tsSet lg generation key none maxage resp = ⟨[], [], [], some .success⟩ ∧
    jsSet lg generation key none maxage resp = ⟨[], [], [], some .success⟩ := by
  intro lg generation key maxage resp
  exact ⟨rfl, rfl⟩

/-- C8: a set call whose value cannot be encoded as JSON emits
JSON_STRINGIFY_FAILED after WRITE_START, fails with SerializationError, and
performs zero store writes. -/
theorem stringify_failure_no_store_write : ∀ (generation : Nat) (key : String) (maxage : Nat)
    (resp : WriteResp) (v : JsValue), stringifyJs v = none →
    (tsSet none generation key (some v) maxage resp).writes = [] ∧
    (tsSet none generation key (some v) maxage resp).settled =
      some (.failure .REDIS_CACHE_JSON_STRINGIFY_FAILED) ∧
    (tsSet none generation key (some v) maxage resp).events =
      [.REDIS_CACHE_WRITE_START, .REDIS_CACHE_JSON_STRINGIFY_FAILED] := by
  intro generation key maxage resp v hv
  match v with
  | .circular => exact ⟨rfl, rfl, rfl⟩
  | .json j => simp [stringifyJs] at hv

theorem stringify_failure_no_store_write_witness :
    stringifyJs .circular = none ∧
    (tsSet none 1 "k" (some .circular) 60 (.ok true)).writes = [] ∧
    (tsSet none 1 "k" (some .circular) 60 (.ok true)).settled =
      some (.failure .REDIS_CACHE_JSON_STRINGIFY_FAILED) ∧
    (tsSet none 1 "k" (some .circular) 60 (.ok true)).events =
      [.REDIS_CACHE_WRITE_START, .REDIS_CACHE_JSON_STRINGIFY_FAILED] :=
  ⟨rfl, stringify_failure_no_store_write 1 "k" 60 (.ok true) .circular rfl⟩

/-- C5: in HTTP-narrowing mode set persists exactly the projection
status_code, headers, result of the input: for every input with those three
fields and arbitrary extraneous fields, the single stored payload is the
serialization of the three-field object, it decodes back to exactly that
object, whose keys are precisely status_code, headers, result — so
extraneousField never appears in the stored payload. -/
theorem http_narrowing_projection : ∀ (generation : Nat) (key : String) (maxage : Nat)
    (resp : WriteResp) (sc hd rs : Json) (extra : List (String × JsValue)),
    (jsSet none generation key
        (some ⟨some (.json sc), some (.json hd), some (.json rs), extra⟩)
        maxage resp).writes.map (fun w => w.2.1) =
      [serializeJson (.obj [("status_code", sc), ("headers", hd), ("result", rs)])] ∧
    jsonParse (serializeJson (.obj [("status_code", sc), ("headers", hd), ("result", rs)])) =
      some (.obj [("status_code", sc), ("headers", hd), ("result", rs)]) ∧
    ([("status_code", sc), ("headers", hd), ("result", rs)]).map Prod.fst =
      ["status_code", "headers", "result"] ∧
    ¬ "extraneousField" ∈
      ([("status_code", sc), ("headers", hd), ("result", rs)]).map Prod.fst := by
  intro generation key maxage resp sc hd rs extra
  refine ⟨?_, jsonParse_serializeJson _, rfl, by simp⟩
  match resp with
  | .err => rfl
  | .ok true => rfl
  | .ok false => rfl

/-- C6: decode after encode is the configured projection: in generic
(verbatim) mode decoding the encoding of any payload value yields the value
itself, and in HTTP-narrowing mode encoding projects to the three documented
fields and decoding returns exactly that projection. -/
theorem decode_encode_roundtrip :
    (∀ j : Json, jsonParse (serializeJson j) = some j) ∧
    (∀ (sc hd rs : Json) (extra : List (String × JsValue)),
      encodeHttp ⟨some (.json sc), some (.json hd), some (.json rs), extra⟩ =
        some (serializeJson (.obj [("status_code", sc), ("headers", hd), ("result", rs)])) ∧
      jsonParse (serializeJson (.obj [("status_code", sc), ("headers", hd), ("result", rs)])) =
        some (.obj [("status_code", sc), ("headers", hd), ("result", rs)])) := by
  refine ⟨jsonParse_serializeJson, ?_⟩
  intro sc hd rs extra
  exact ⟨rfl, jsonParse_serializeJson _⟩

/-- C9 (counterexample): the claim that the cache-operation outcome is
unaffected by the logger's behaviour is false: the source calls logger.log
unguarded, so a logger that throws while READ_START is logged inside the
promise executor rejects the get with the raw thrown value, while the same
call without a logger succeeds with the decoded value. -/
theorem logger_claim_counterexample :
    (runGet (some (fun e => decide (e = .REDIS_CACHE_READ_START)))
        (.storeFirst (.ok (some "1")))).settled = some .thrown ∧
    (runGet none (.storeFirst (.ok (some "1")))).settled = some (.success (.num 1)) ∧
    GOutcome.thrown ≠ GOutcome.success (.num 1) := by
  refine ⟨rfl, rfl, by simp⟩

/-- C9 (amended): for every logger whose log method returns normally, the
outcome of every get and set equals the outcome with no logger supplied,
and with no logger every logging call is skipped (the logger is never
invoked); only a logger whose log throws can change an outcome. -/
theorem logger_immaterial_when_total : ∀ f : Logger, (∀ e, f e = false) →
    (∀ sched, (runGet (some f) sched).settled = (runGet none sched).settled ∧
      (runGet none sched).loggerCalls = []) ∧
    (∀ (generation : Nat) (key : String) (value : Option JsValue) (maxage : Nat)
      (resp : WriteResp),
      (tsSet (some f) generation key value maxage resp).settled =
        (tsSet none generation key value maxage resp).settled ∧
      (tsSet none generation key value maxage resp).loggerCalls = []) := by
  intro f hf
  constructor
  · intro sched
    match sched with
    | .timerOnly =>
      simp [runGet, timerFire, storeRespond, logStep, settle, logThrows, initialGetTrace, hf]
    | .timerFirst r =>
      match r with
      | .err =>
        simp [runGet, timerFire, storeRespond, logStep, settle, logThrows, initialGetTrace, hf]
      | .ok none =>
        simp [runGet, timerFire, storeRespond, logStep, settle, logThrows, initialGetTrace, hf]
      | .ok (some s) =>
        simp [runGet, timerFire, storeRespond, logStep, settle, logThrows, initialGetTrace, hf]
    | .storeFirst r =>
      match r with
      | .err =>
        simp [runGet, timerFire, storeRespond, logStep, settle, logThrows, initialGetTrace, hf]
      | .ok none =>
        simp [runGet, timerFire, storeRespond, logStep, settle, logThrows, initialGetTrace, hf]
      | .ok (some s) =>
        by_cases hs : s.isEmpty <;>
          simp [runGet, timerFire, storeRespond, logStep, settle, logThrows,
            initialGetTrace, hf, hs]
        cases hp : jsonParse s <;> simp [hp]
  · intro generation key value maxage resp
    match value with
    | none => exact ⟨rfl, rfl⟩
    | some .circular =>
      simp [tsSet, writeCallback, logThrows, stringifyJs, hf]
    | some (.json j) =>
      match resp with
      | .err => simp [tsSet, writeCallback, logThrows, stringifyJs, hf]
      | .ok true => simp [tsSet, writeCallback, logThrows, stringifyJs, hf]
      | .ok false => simp [tsSet, writeCallback, logThrows, stringifyJs, hf]

theorem logger_immaterial_witness :
    (runGet (some (fun _ => false)) (.storeFirst (.ok none))).settled =
      (runGet none (.storeFirst (.ok none))).settled ∧
    (tsSet (some (fun _ => false)) 1 "k" (some (.json .null)) 60 (.ok true)).settled =
      (tsSet none 1 "k" (some (.json .null)) 60 (.ok true)).settled :=
  ⟨((logger_immaterial_when_total (fun _ => false) (fun _ => rfl)).1
      (.storeFirst (.ok none))).1,
   ((logger_immaterial_when_total (fun _ => false) (fun _ => rfl)).2
      1 "k" (some (.json .null)) 60 (.ok true)).1⟩

theorem get_race_single_terminal_witness :
    (runGet none .timerOnly).settled ≠ some GOutcome.thrown :=
  (get_race_single_terminal.1 .timerOnly).2.2

theorem normalize_key_sha512_hex_witness :
    normalizeKey 1 "somekey" =
      "e33d0afae8e08752efa1a467653931ae9ba60c6a3ea693e684a6a56ef3b18ba3c7e711edee33f99471d9bb2d02302e92512cc3c8513ab473bbe71d52b8f7e39a" :=
  normalize_key_sha512_hex.2

theorem http_narrowing_projection_witness :
    (jsSet none 1 "k"
        (some ⟨some (.json (.num 200)), some (.json (.obj [])), some (.json (.str "body")),
          [("extraneousField", .json (.str "x"))]⟩)
        60 (.ok true)).writes.map (fun w => w.2.1) =
      [serializeJson (.obj [("status_code", .num 200), ("headers", .obj []),
        ("result", .str "body")])] ∧
    jsonParse (serializeJson (.obj [("status_code", .num 200), ("headers", .obj []),
        ("result", .str "body")])) =
      some (.obj [("status_code", .num 200), ("headers", .obj []), ("result", .str "body")]) ∧
    ([("status_code", Json.num 200), ("headers", Json.obj []),
        ("result", Json.str "body")]).map Prod.fst =
      ["status_code", "headers", "result"] ∧
    ¬ "extraneousField" ∈
      ([("status_code", Json.num 200), ("headers", Json.obj []),
        ("result", Json.str "body")]).map Prod.fst :=
  http_narrowing_projection 1 "k" 60 (.ok true) (.num 200) (.obj []) (.str "body")
    [("extraneousField", .json (.str "x"))]

end RedisCache
